import Mathlib

/-!
Verification of the request-rewriting proxy in `main.py`.

The development shallowly embeds the JSON data model and the request
handlers `proxy_post` and `proxy_get` of the source.  Python dictionaries
are modelled as association lists over `String` keys; Python exceptions
that can escape the handler body (AttributeError, TypeError) are modelled
with `Except PyErr`.
-/

set_option autoImplicit false

namespace O1Proxy

/-- JSON values as produced by Python `json` parsing.  Numbers are carried
as integers; the rewrite logic never computes with numeric values, it only
moves them, so this loses nothing relevant. -/
inductive Json where
  | null : Json
  | bool : Bool → Json
  | num : Int → Json
  | str : String → Json
  | arr : List Json → Json
  | obj : List (String × Json) → Json

/-- Python exceptions that the handler body can raise. -/
inductive PyErr where
  | attributeError : PyErr
  | typeError : PyErr
  deriving DecidableEq

/-- Python `d.get(key)` on a dict modelled as an association list:
the value of the first entry whose key matches. -/
def lookupKey : List (String × Json) → String → Option Json
  | [], _ => none
  | (k, v) :: fs, key => if k = key then some v else lookupKey fs key

/-- Python `key in d`. -/
def hasKey : List (String × Json) → String → Bool
  | [], _ => false
  | (k, _) :: fs, key => if k = key then true else hasKey fs key

/-- Python `d.pop(key, None)` (the removal part): delete the entry with
the given key.  Parsed JSON objects have no duplicate keys, for which this
filter formulation coincides with Python dict deletion. -/
def popKey : List (String × Json) → String → List (String × Json)
  | [], _ => []
  | (k, v) :: fs, key => if k = key then popKey fs key else (k, v) :: popKey fs key

/-- Python `d[key] = v`: replace the value of an existing entry in place,
otherwise append the new entry at the end (dict insertion order). -/
def setKey : List (String × Json) → String → Json → List (String × Json)
  | [], key, v => [(key, v)]
  | (k, w) :: fs, key, v =>
      if k = key then (key, v) :: fs else (k, w) :: setKey fs key v

/-- `O1_MODELS = ['o1-preview', 'o1-mini']` (main.py line 25). -/
def O1_MODELS : List String := ["o1-preview", "o1-mini"]

/-- `UNSUPPORTED_PARAMETERS` (main.py lines 28-31). -/
def UNSUPPORTED_PARAMETERS : List String :=
  ["temperature", "top_p", "n", "presence_penalty", "frequency_penalty",
   "stream", "functions", "function_call", "logit_bias", "user", "system_prompt"]

/-- `OPENAI_API_BASE` (main.py line 22). -/
def OPENAI_API_BASE : String := "https://api.openai.com"

/-- Python `model in O1_MODELS`: equality of the JSON value with one of
the model strings; a non-string value equals no string. -/
def isO1Model : Json → Bool
  | Json.str s => O1_MODELS.contains s
  | _ => false

/-- Python iteration `for msg in x`: lists yield their elements, strings
yield their characters (as one-character strings), dicts yield their keys;
other values raise TypeError. -/
def pyIter : Json → Except PyErr (List Json)
  | Json.arr xs => Except.ok xs
  | Json.str s => Except.ok (s.data.map (fun c => Json.str (String.mk [c])))
  | Json.obj fs => Except.ok (fs.map (fun p => Json.str p.1))
  | _ => Except.error PyErr.typeError

/-- Python `msg.get("role")`: raises AttributeError unless `msg` is a
dict. -/
def getRole : Json → Except PyErr (Option Json)
  | Json.obj fs => Except.ok (lookupKey fs "role")
  | _ => Except.error PyErr.attributeError

/-- The pure content of the filter predicate `msg.get("role") != "system"`
for dict messages (Python inequality of a non-string with a string is
true, and a missing role yields None, which also differs from a string). -/
def keepMsg : Json → Bool
  | Json.obj gs =>
      match lookupKey gs "role" with
      | some (Json.str s) => !(s == "system")
      | _ => true
  | _ => true

/-- A message whose `role` field is the literal string `"system"`. -/
def roleIsSystem : Json → Bool
  | Json.obj gs =>
      match lookupKey gs "role" with
      | some (Json.str s) => s == "system"
      | _ => false
  | _ => false

/-- The list comprehension
`[msg for msg in body.get("messages", []) if msg.get("role") != "system"]`
(main.py lines 73-75), with the AttributeError of `msg.get` on a non-dict
element propagated. -/
def filterMsgs : List Json → Except PyErr (List Json)
  | [] => Except.ok []
  | m :: ms =>
      match getRole m with
      | Except.error e => Except.error e
      | Except.ok r =>
          match filterMsgs ms with
          | Except.error e => Except.error e
          | Except.ok rest =>
              match r with
              | some (Json.str s) =>
                  if s = "system" then Except.ok rest else Except.ok (m :: rest)
              | _ => Except.ok (m :: rest)

/-- The loop `for param in UNSUPPORTED_PARAMETERS: body.pop(param, None)`
(main.py lines 61-62). -/
def stripUnsupported (fs : List (String × Json)) : List (String × Json) :=
  UNSUPPORTED_PARAMETERS.foldl popKey fs

/-- The token-budget branch (main.py lines 65-70): if `max_tokens` is
present it is popped and its value stored under `max_completion_tokens`;
otherwise `max_completion_tokens` is assigned 25000. -/
def normalizeTokens (fs : List (String × Json)) : List (String × Json) :=
  if hasKey fs "max_tokens" then
    setKey (popKey fs "max_tokens") "max_completion_tokens"
      ((lookupKey fs "max_tokens").getD Json.null)
  else
    setKey fs "max_completion_tokens" (Json.num 25000)

/-- The body transformation of `proxy_post` (main.py lines 57-75): read
`model` with default `""`; when it is one of the o1 models, strip the
unsupported parameters, normalize the token budget, and assign the
filtered message list back to `messages`.  A non-dict body raises
AttributeError at `body.get`; a non-dict message element raises
AttributeError at `msg.get`; iterating a non-iterable `messages` value
raises TypeError. -/
def rewriteBody : Json → Except PyErr Json
  | Json.obj fs =>
      if isO1Model ((lookupKey fs "model").getD (Json.str "")) then
        match pyIter ((lookupKey (normalizeTokens (stripUnsupported fs)) "messages").getD (Json.arr [])) with
        | Except.error e => Except.error e
        | Except.ok elems =>
            match filterMsgs elems with
            | Except.error e => Except.error e
            | Except.ok kept =>
                Except.ok (Json.obj
                  (setKey (normalizeTokens (stripUnsupported fs)) "messages" (Json.arr kept)))
      else Except.ok (Json.obj fs)
  | _ => Except.error PyErr.attributeError

/-- Python `s.split(sep)` for a non-empty separator, by fuel-indexed
left-to-right scanning; with fuel at least the length of the string the
fuel-exhaustion case is unreachable, so the result is exactly the Python
split. -/
def splitGo (sep : List Char) : Nat → List Char → List Char → List (List Char)
  | _, [], acc => [acc.reverse]
  | 0, s, acc => [acc.reverse ++ s]
  | Nat.succ fuel, c :: rest, acc =>
      if sep.isPrefixOf (c :: rest) then
        acc.reverse :: splitGo sep fuel ((c :: rest).drop sep.length) []
      else
        splitGo sep fuel rest (c :: acc)

/-- Python `s.split(sep)` (sep non-empty; Python raises on an empty
separator, a case the handlers never produce). -/
def pySplit (sep s : String) : List String :=
  (splitGo sep.data s.data.length s.data []).map String.mk

/-- Python `s.startswith(pre)`. -/
def pyStartsWith (s pre : String) : Bool :=
  pre.data.isPrefixOf s.data

/-- Python truthiness of a string: non-empty. -/
def pyTruthy (s : String) : Bool := s != ""

/-- `authorization.split("Bearer ")[-1]` (main.py lines 45 and 97):
Python `[-1]` on the (always non-empty) split result. -/
def extractKey (a : String) : String :=
  (pySplit "Bearer " a).getLastD ""

/-- The credential check and extraction shared by both handlers
(main.py lines 41-45 and 93-97): reject a missing, falsy, or
non-`Bearer ` header, otherwise extract the key. -/
def checkAuth : Option String → Option String
  | none => none
  | some a =>
      if !(pyTruthy a) || !(pyStartsWith a "Bearer ") then none
      else some (extractKey a)

/-- The 401 payload produced by `HTTPException(status_code=401, detail=...)`. -/
def AUTH_ERROR_DETAIL : Json :=
  Json.obj [("detail", Json.str "Authorization header with Bearer token is required")]

/-- The 400 payload `JSONResponse(content={...}, status_code=400)`
(main.py line 54). -/
def INVALID_JSON_ERROR : Json :=
  Json.obj [("error", Json.str "Invalid JSON data")]

/-- Observable outcome of one handler invocation: a locally produced JSON
reply, an uncaught Python exception (a 500 from the framework), or an
outbound request to the upstream carrying the built URL, the built
Authorization header value, and the forwarded body. -/
inductive HandlerResult where
  | reply : Nat → Json → HandlerResult
  | uncaught : PyErr → HandlerResult
  | forward : String → String → Option Json → HandlerResult

/-- `proxy_post` (main.py lines 38-87).  The JSON parse outcome of
`await request.json()` is passed in as a parameter; `Except.error ()`
models a body that raises json.JSONDecodeError. -/
def proxy_post (path : String) (authorization : Option String)
    (parsed : Except Unit Json) : HandlerResult :=
  match checkAuth authorization with
  | none => HandlerResult.reply 401 AUTH_ERROR_DETAIL
  | some openai_api_key =>
      match parsed with
      | Except.error _ => HandlerResult.reply 400 INVALID_JSON_ERROR
      | Except.ok body =>
          match rewriteBody body with
          | Except.error e => HandlerResult.uncaught e
          | Except.ok newBody =>
              HandlerResult.forward (OPENAI_API_BASE ++ "/v1/" ++ path)
                ("Bearer " ++ openai_api_key) (some newBody)

/-- `proxy_get` (main.py lines 90-110). -/
def proxy_get (path : String) (authorization : Option String) : HandlerResult :=
  match checkAuth authorization with
  | none => HandlerResult.reply 401 AUTH_ERROR_DETAIL
  | some openai_api_key =>
      HandlerResult.forward (OPENAI_API_BASE ++ "/v1/" ++ path)
        ("Bearer " ++ openai_api_key) none

/-! ### Association-list lemmas -/

theorem lookupKey_setKey_self (fs : List (String × Json)) (key : String) (v : Json) :
    lookupKey (setKey fs key v) key = some v := by
  induction fs with
  | nil => simp [setKey, lookupKey]
  | cons p fs ih =>
      obtain ⟨k, w⟩ := p
      by_cases h : k = key <;> simp [setKey, lookupKey, h, ih]

theorem lookupKey_setKey_ne (fs : List (String × Json)) (key k : String) (v : Json)
    (h : k ≠ key) : lookupKey (setKey fs key v) k = lookupKey fs k := by
  induction fs with
  | nil => simp [setKey, lookupKey, Ne.symm h]
  | cons p fs ih =>
      obtain ⟨k', w⟩ := p
      by_cases h1 : k' = key
      · simp [setKey, lookupKey, h1, Ne.symm h, h]
      · by_cases h2 : k' = k <;> simp [setKey, lookupKey, h1, h2, h, ih]

theorem hasKey_setKey_self (fs : List (String × Json)) (key : String) (v : Json) :
    hasKey (setKey fs key v) key = true := by
  induction fs with
  | nil => simp [setKey, hasKey]
  | cons p fs ih =>
      obtain ⟨k, w⟩ := p
      by_cases h : k = key <;> simp [setKey, hasKey, h, ih]

theorem hasKey_setKey_ne (fs : List (String × Json)) (key k : String) (v : Json)
    (h : k ≠ key) : hasKey (setKey fs key v) k = hasKey fs k := by
  induction fs with
  | nil => simp [setKey, hasKey, Ne.symm h]
  | cons p fs ih =>
      obtain ⟨k', w⟩ := p
      by_cases h1 : k' = key
      · simp [setKey, hasKey, h1, Ne.symm h, h]
      · by_cases h2 : k' = k <;> simp [setKey, hasKey, h1, h2, h, ih]

theorem lookupKey_popKey_ne (fs : List (String × Json)) (key k : String)
    (h : k ≠ key) : lookupKey (popKey fs key) k = lookupKey fs k := by
  induction fs with
  | nil => simp [popKey]
  | cons p fs ih =>
      obtain ⟨k', w⟩ := p
      by_cases h1 : k' = key
      · simp [popKey, lookupKey, h1, Ne.symm h, h, ih]
      · by_cases h2 : k' = k <;> simp [popKey, lookupKey, h1, h2, h, ih]

theorem hasKey_popKey (fs : List (String × Json)) (key k : String) :
    hasKey (popKey fs key) k = (decide (k ≠ key) && hasKey fs k) := by
  induction fs with
  | nil => simp [popKey, hasKey]
  | cons p fs ih =>
      obtain ⟨k', w⟩ := p
      by_cases h1 : k' = key
      · by_cases h2 : k' = k
        · have h3 : k = key := h2 ▸ h1
          subst h3
          simp [popKey, hasKey, h1, h2, ih]
        · have h3 : k ≠ key := fun hk => h2 ((hk.trans h1.symm).symm)
          simp [popKey, hasKey, h1, h2, h3, Ne.symm h3, ih]
      · by_cases h2 : k' = k
        · have h3 : k ≠ key := fun hk => h1 (h2.trans hk)
          simp [popKey, hasKey, h1, h2, h3, Ne.symm h3, ih]
        · simp [popKey, hasKey, h1, h2, ih]

theorem hasKey_foldl_popKey_of_false (ks : List String) (fs : List (String × Json))
    (k : String) (h : hasKey fs k = false) :
    hasKey (ks.foldl popKey fs) k = false := by
  induction ks generalizing fs with
  | nil => exact h
  | cons key ks ih =>
      exact ih (popKey fs key) (by rw [hasKey_popKey, h, Bool.and_false])

theorem hasKey_foldl_popKey_of_mem (ks : List String) (fs : List (String × Json))
    (k : String) (h : k ∈ ks) : hasKey (ks.foldl popKey fs) k = false := by
  induction ks generalizing fs with
  | nil => cases h
  | cons key ks ih =>
      rcases List.mem_cons.mp h with h1 | h1
      · subst h1
        exact hasKey_foldl_popKey_of_false ks (popKey fs k) k
          (by rw [hasKey_popKey]; simp)
      · exact ih (popKey fs key) h1

theorem lookupKey_foldl_popKey_of_not_mem (ks : List String) (fs : List (String × Json))
    (k : String) (h : k ∉ ks) :
    lookupKey (ks.foldl popKey fs) k = lookupKey fs k := by
  induction ks generalizing fs with
  | nil => rfl
  | cons key ks ih =>
      have h1 : k ≠ key := fun hk => h (hk ▸ List.mem_cons_self key ks)
      have h2 : k ∉ ks := fun hk => h (List.mem_cons_of_mem key hk)
      rw [List.foldl_cons, ih (popKey fs key) h2, lookupKey_popKey_ne fs key k h1]

/-! ### Lemmas about the rewrite components -/

theorem hasKey_stripUnsupported_of_mem (fs : List (String × Json)) (k : String)
    (h : k ∈ UNSUPPORTED_PARAMETERS) : hasKey (stripUnsupported fs) k = false :=
  hasKey_foldl_popKey_of_mem UNSUPPORTED_PARAMETERS fs k h

theorem lookupKey_stripUnsupported_of_not_mem (fs : List (String × Json)) (k : String)
    (h : k ∉ UNSUPPORTED_PARAMETERS) :
    lookupKey (stripUnsupported fs) k = lookupKey fs k :=
  lookupKey_foldl_popKey_of_not_mem UNSUPPORTED_PARAMETERS fs k h

theorem hasKey_normalizeTokens_mct (fs : List (String × Json)) :
    hasKey (normalizeTokens fs) "max_completion_tokens" = true := by
  unfold normalizeTokens
  split <;> exact hasKey_setKey_self _ _ _

theorem hasKey_normalizeTokens_mt (fs : List (String × Json)) :
    hasKey (normalizeTokens fs) "max_tokens" = false := by
  unfold normalizeTokens
  split
  · rw [hasKey_setKey_ne _ _ _ _ (by decide), hasKey_popKey]
    simp
  · rename_i h
    rw [hasKey_setKey_ne _ _ _ _ (by decide)]
    simpa using h

theorem lookupKey_normalizeTokens_ne (fs : List (String × Json)) (k : String)
    (h1 : k ≠ "max_tokens") (h2 : k ≠ "max_completion_tokens") :
    lookupKey (normalizeTokens fs) k = lookupKey fs k := by
  unfold normalizeTokens
  split
  · rw [lookupKey_setKey_ne _ _ _ _ h2, lookupKey_popKey_ne _ _ _ h1]
  · rw [lookupKey_setKey_ne _ _ _ _ h2]

theorem hasKey_normalizeTokens_ne (fs : List (String × Json)) (k : String)
    (h1 : k ≠ "max_tokens") (h2 : k ≠ "max_completion_tokens") :
    hasKey (normalizeTokens fs) k = hasKey fs k := by
  unfold normalizeTokens
  split
  · rw [hasKey_setKey_ne _ _ _ _ h2, hasKey_popKey]
    simp [h1]
  · rw [hasKey_setKey_ne _ _ _ _ h2]

/-- The `messages` value read by the rewrite equals the one in the
original body: `messages` is not popped and not assigned before it is
read. -/
theorem lookupKey_normalized_messages (fs : List (String × Json)) :
    lookupKey (normalizeTokens (stripUnsupported fs)) "messages" = lookupKey fs "messages" := by
  rw [lookupKey_normalizeTokens_ne _ _ (by decide) (by decide),
    lookupKey_stripUnsupported_of_not_mem _ _ (by decide)]

/-! ### Lemmas about message filtering -/

theorem keepMsg_eq_not_roleIsSystem (m : Json) : keepMsg m = !(roleIsSystem m) := by
  cases m <;> simp [keepMsg, roleIsSystem]
  rename_i fs
  cases h : lookupKey fs "role" with
  | none => rfl
  | some v => cases v <;> rfl

theorem getRole_ok_obj (m : Json) (r : Option Json) (h : getRole m = Except.ok r) :
    ∃ gs, m = Json.obj gs := by
  cases m <;> first | exact ⟨_, rfl⟩ | exact Except.noConfusion h

theorem filterMsgs_ok_mem_obj (ms ks : List Json) (h : filterMsgs ms = Except.ok ks) :
    ∀ m ∈ ms, ∃ gs, m = Json.obj gs := by
  induction ms generalizing ks with
  | nil => intro m hm; cases hm
  | cons m ms ih =>
      unfold filterMsgs at h
      cases hr : getRole m with
      | error e => rw [hr] at h; exact Except.noConfusion h
      | ok r =>
          rw [hr] at h
          cases hrest : filterMsgs ms with
          | error e => rw [hrest] at h; exact Except.noConfusion h
          | ok rest =>
              intro x hx
              rcases List.mem_cons.mp hx with h1 | h1
              · exact h1 ▸ getRole_ok_obj m r hr
              · exact ih rest hrest x h1

theorem filterMsgs_total (ms : List Json)
    (h : ∀ m ∈ ms, ∃ gs, m = Json.obj gs) :
    filterMsgs ms = Except.ok (ms.filter keepMsg) := by
  induction ms with
  | nil => rfl
  | cons m ms ih =>
      obtain ⟨gs, hm⟩ := h m (List.mem_cons_self m ms)
      subst hm
      have ihh := ih (fun x hx => h x (List.mem_cons_of_mem _ hx))
      unfold filterMsgs
      rw [ihh]
      simp only [getRole]
      cases hrole : lookupKey gs "role" with
      | none => simp [List.filter, keepMsg, hrole]
      | some v =>
          cases v with
          | str s =>
              by_cases hs : s = "system"
              · subst hs; simp [List.filter, keepMsg, hrole]
              · have hb : (s == "system") = false := by
                  simp only [beq_eq_false_iff_ne, ne_eq]
                  exact hs
                simp [List.filter, keepMsg, hrole, hs, hb]
          | null => simp [List.filter, keepMsg, hrole]
          | bool b => simp [List.filter, keepMsg, hrole]
          | num n => simp [List.filter, keepMsg, hrole]
          | arr xs => simp [List.filter, keepMsg, hrole]
          | obj hs2 => simp [List.filter, keepMsg, hrole]

theorem filterMsgs_ok (ms ks : List Json) (h : filterMsgs ms = Except.ok ks) :
    ks = ms.filter keepMsg := by
  have htot := filterMsgs_total ms (filterMsgs_ok_mem_obj ms ks h)
  rw [htot] at h
  exact (Except.ok.inj h).symm

/-- Shape of a successful rewrite of a restricted-model body: the output
object is the token-normalized, parameter-stripped field list with the
filtered message list assigned to `messages`. -/
theorem rewriteBody_restricted_ok (fs : List (String × Json))
    (hmodel : isO1Model ((lookupKey fs "model").getD (Json.str "")) = true)
    (out : Json) (hok : rewriteBody (Json.obj fs) = Except.ok out) :
    ∃ elems kept,
      pyIter ((lookupKey fs "messages").getD (Json.arr [])) = Except.ok elems ∧
      filterMsgs elems = Except.ok kept ∧
      out = Json.obj (setKey (normalizeTokens (stripUnsupported fs)) "messages" (Json.arr kept)) := by
  simp only [rewriteBody] at hok
  rw [lookupKey_normalized_messages] at hok
  rw [if_pos hmodel] at hok
  cases hiter : pyIter ((lookupKey fs "messages").getD (Json.arr [])) with
  | error e => simp only [hiter] at hok; exact Except.noConfusion hok
  | ok elems =>
      simp only [hiter] at hok
      cases hfil : filterMsgs elems with
      | error e => simp only [hfil] at hok; exact Except.noConfusion hok
      | ok kept =>
          simp only [hfil, Except.ok.injEq] at hok
          exact ⟨elems, kept, rfl, hfil, hok.symm⟩

/-! ### Lemmas about Python string splitting -/

theorem isPrefixOf_append_self (l t : List Char) : l.isPrefixOf (l ++ t) = true := by
  induction l with
  | nil => simp
  | cons c cs ih => simp [List.isPrefixOf_cons₂, ih]

/-- When the separator occurs nowhere in the remaining input, the scan
consumes everything into the current accumulator. -/
theorem splitGo_no_sep (sep : List Char) (fuel : Nat) (t acc : List Char)
    (hfuel : t.length ≤ fuel)
    (h : ∀ i, sep.isPrefixOf (t.drop i) = false) :
    splitGo sep fuel t acc = [acc.reverse ++ t] := by
  induction fuel generalizing t acc with
  | zero =>
      cases t with
      | nil => simp [splitGo]
      | cons c rest => exact absurd hfuel (by simp)
  | succ fuel ih =>
      cases t with
      | nil => simp [splitGo]
      | cons c rest =>
          have h0 := h 0
          simp only [List.drop_zero] at h0
          unfold splitGo
          rw [if_neg (by rw [h0]; exact Bool.false_ne_true)]
          have h1 : ∀ i, sep.isPrefixOf (rest.drop i) = false := by
            intro i
            have := h (i + 1)
            simpa using this
          rw [ih rest (c :: acc) (Nat.le_of_succ_le_succ (by simpa using hfuel)) h1]
          simp

/-- The scan on a string that begins with the separator emits the
accumulator and restarts after the separator. -/
theorem splitGo_sep_step (c : Char) (cs rest : List Char) (fuel : Nat) (acc : List Char) :
    splitGo (c :: cs) (fuel + 1) (c :: (cs ++ rest)) acc =
      acc.reverse :: splitGo (c :: cs) fuel rest [] := by
  conv_lhs => unfold splitGo
  rw [if_pos ?hc]
  case hc =>
    have h1 : (c :: cs) ++ rest = c :: (cs ++ rest) := by simp
    rw [← h1]
    exact isPrefixOf_append_self (c :: cs) rest
  have hd : List.drop (c :: cs).length (c :: (cs ++ rest)) = rest := by
    simp only [List.length_cons, List.drop_succ_cons]
    exact List.drop_left cs rest
  rw [hd]

/-- Splitting `sep ++ t` when `sep` occurs nowhere in `t` yields exactly
the empty string and `t`. -/
theorem splitGo_sep_full (c : Char) (cs t : List Char)
    (hall : ∀ i, (c :: cs).isPrefixOf (t.drop i) = false) :
    splitGo (c :: cs) ((c :: cs) ++ t).length ((c :: cs) ++ t) [] = [[], t] := by
  show splitGo (c :: cs) ((cs ++ t).length + 1) (c :: (cs ++ t)) [] = [[], t]
  rw [splitGo_sep_step c cs t ((cs ++ t).length) []]
  rw [splitGo_no_sep (c :: cs) ((cs ++ t).length) t [] (by simp) hall]
  simp

/-! ### Claim theorems -/

/-- Claim C1 (code divergence): for a restricted-model body that already
carries `max_completion_tokens` and no `max_tokens`, the code does not
leave the field untouched: the else branch of the token-budget step
overwrites it with the default 25000 (its own comment says the default
applies only when neither field is specified). -/
theorem token_budget_overwrite_divergence :
    rewriteBody (Json.obj [("model", Json.str "o1-mini"),
        ("max_completion_tokens", Json.num 100)]) =
      Except.ok (Json.obj [("model", Json.str "o1-mini"),
        ("max_completion_tokens", Json.num 25000), ("messages", Json.arr [])]) ∧
    Json.num 25000 ≠ Json.num 100 :=
  ⟨rfl, by simp⟩

/-- Claim C2 (code divergence): the restricted-model rewrite is not
idempotent.  Starting from a body with `max_tokens` 500, one application
yields `max_completion_tokens` 500, but a second application overwrites
it with 25000. -/
theorem rewrite_not_idempotent_divergence :
    rewriteBody (Json.obj [("model", Json.str "o1-mini"), ("max_tokens", Json.num 500)]) =
      Except.ok (Json.obj [("model", Json.str "o1-mini"),
        ("max_completion_tokens", Json.num 500), ("messages", Json.arr [])]) ∧
    rewriteBody (Json.obj [("model", Json.str "o1-mini"),
        ("max_completion_tokens", Json.num 500), ("messages", Json.arr [])]) =
      Except.ok (Json.obj [("model", Json.str "o1-mini"),
        ("max_completion_tokens", Json.num 25000), ("messages", Json.arr [])]) ∧
    Json.obj [("model", Json.str "o1-mini"),
        ("max_completion_tokens", Json.num 500), ("messages", Json.arr [])] ≠
      Json.obj [("model", Json.str "o1-mini"),
        ("max_completion_tokens", Json.num 25000), ("messages", Json.arr [])] :=
  ⟨rfl, rfl, by simp⟩

/-- Claim C3 (counterexample): the rewrite is not total.  A restricted
body whose `messages` list contains a non-object entry raises
AttributeError at `msg.get("role")` instead of being tolerated. -/
theorem rewrite_raises_on_non_object_message :
    rewriteBody (Json.obj [("model", Json.str "o1-mini"),
        ("messages", Json.arr [Json.num 1])]) =
      Except.error PyErr.attributeError := rfl

/-- Claim C3 (amended): the rewrite succeeds on every JSON object body
whose `messages` field is absent or is a list of JSON objects; in
particular a missing `messages` field is tolerated (treated as empty). -/
theorem rewrite_total_on_wellformed_messages (fs : List (String × Json))
    (h : lookupKey fs "messages" = none ∨
      ∃ ms, lookupKey fs "messages" = some (Json.arr ms) ∧ ∀ m ∈ ms, ∃ gs, m = Json.obj gs) :
    ∃ out, rewriteBody (Json.obj fs) = Except.ok out := by
  simp only [rewriteBody]
  rw [lookupKey_normalized_messages]
  by_cases hmodel : isO1Model ((lookupKey fs "model").getD (Json.str "")) = true
  · rw [if_pos hmodel]
    rcases h with h | ⟨ms, hm, hobj⟩
    · rw [h]
      exact ⟨_, rfl⟩
    · rw [hm]
      simp only [Option.getD_some, pyIter]
      rw [filterMsgs_total ms hobj]
      exact ⟨_, rfl⟩
  · rw [if_neg hmodel]
    exact ⟨_, rfl⟩

/-- Witness for the amended C3 theorem at a concrete well-formed body. -/
theorem rewrite_total_on_wellformed_messages_witness :
    (lookupKey [("model", Json.str "o1-mini"),
        ("messages", Json.arr [Json.obj [("role", Json.str "user")]])] "messages" = none ∨
      ∃ ms, lookupKey [("model", Json.str "o1-mini"),
        ("messages", Json.arr [Json.obj [("role", Json.str "user")]])] "messages" =
          some (Json.arr ms) ∧ ∀ m ∈ ms, ∃ gs, m = Json.obj gs) ∧
    ∃ out, rewriteBody (Json.obj [("model", Json.str "o1-mini"),
        ("messages", Json.arr [Json.obj [("role", Json.str "user")]])]) = Except.ok out :=
  ⟨Or.inr ⟨[Json.obj [("role", Json.str "user")]], rfl,
    fun m hm => ⟨[("role", Json.str "user")], List.mem_singleton.mp hm⟩⟩,
   rewrite_total_on_wellformed_messages _
    (Or.inr ⟨[Json.obj [("role", Json.str "user")]], rfl,
      fun m hm => ⟨[("role", Json.str "user")], List.mem_singleton.mp hm⟩⟩)⟩

/-- Claim C4: a successful rewrite of a restricted-model body yields an
object with none of the unsupported parameters, with
`max_completion_tokens`, without `max_tokens`, and whose `messages` value
is the original message sequence filtered to the non-system messages in
their original order. -/
theorem rewrite_restricted_postconditions (fs : List (String × Json))
    (hmodel : isO1Model ((lookupKey fs "model").getD (Json.str "")) = true)
    (out : Json) (hok : rewriteBody (Json.obj fs) = Except.ok out) :
    ∃ gs elems kept,
      out = Json.obj gs ∧
      (∀ k ∈ UNSUPPORTED_PARAMETERS, hasKey gs k = false) ∧
      hasKey gs "max_completion_tokens" = true ∧
      hasKey gs "max_tokens" = false ∧
      pyIter ((lookupKey fs "messages").getD (Json.arr [])) = Except.ok elems ∧
      lookupKey gs "messages" = some (Json.arr kept) ∧
      kept = elems.filter keepMsg ∧
      ∀ m ∈ kept, roleIsSystem m = false := by
  obtain ⟨elems, kept, hiter, hfil, hout⟩ := rewriteBody_restricted_ok fs hmodel out hok
  have hkeep := filterMsgs_ok elems kept hfil
  refine ⟨setKey (normalizeTokens (stripUnsupported fs)) "messages" (Json.arr kept),
    elems, kept, hout, ?_, ?_, ?_, hiter, ?_, hkeep, ?_⟩
  · intro k hk
    have h2 : k ≠ "max_tokens" := by rintro rfl; revert hk; decide
    have h3 : k ≠ "max_completion_tokens" := by rintro rfl; revert hk; decide
    have h1 : k ≠ "messages" := by rintro rfl; revert hk; decide
    rw [hasKey_setKey_ne _ _ _ _ h1, hasKey_normalizeTokens_ne _ _ h2 h3,
      hasKey_stripUnsupported_of_mem _ _ hk]
  · rw [hasKey_setKey_ne _ _ _ _ (by decide), hasKey_normalizeTokens_mct]
  · rw [hasKey_setKey_ne _ _ _ _ (by decide), hasKey_normalizeTokens_mt]
  · exact lookupKey_setKey_self _ _ _
  · intro m hm
    rw [hkeep] at hm
    have hkm := (List.mem_filter.mp hm).2
    rw [keepMsg_eq_not_roleIsSystem m] at hkm
    simpa using hkm

/-- Witness for C4 at a concrete restricted body with a system message. -/
theorem rewrite_restricted_postconditions_witness :
    isO1Model ((lookupKey [("model", Json.str "o1-mini"), ("temperature", Json.num 1),
        ("messages", Json.arr [Json.obj [("role", Json.str "system")],
          Json.obj [("role", Json.str "user")]])] "model").getD (Json.str "")) = true ∧
    rewriteBody (Json.obj [("model", Json.str "o1-mini"), ("temperature", Json.num 1),
        ("messages", Json.arr [Json.obj [("role", Json.str "system")],
          Json.obj [("role", Json.str "user")]])]) =
      Except.ok (Json.obj [("model", Json.str "o1-mini"),
        ("messages", Json.arr [Json.obj [("role", Json.str "user")]]),
        ("max_completion_tokens", Json.num 25000)]) ∧
    (∃ gs elems kept,
      (Json.obj [("model", Json.str "o1-mini"),
        ("messages", Json.arr [Json.obj [("role", Json.str "user")]]),
        ("max_completion_tokens", Json.num 25000)]) = Json.obj gs ∧
      (∀ k ∈ UNSUPPORTED_PARAMETERS, hasKey gs k = false) ∧
      hasKey gs "max_completion_tokens" = true ∧
      hasKey gs "max_tokens" = false ∧
      pyIter ((lookupKey [("model", Json.str "o1-mini"), ("temperature", Json.num 1),
        ("messages", Json.arr [Json.obj [("role", Json.str "system")],
          Json.obj [("role", Json.str "user")]])] "messages").getD (Json.arr [])) =
        Except.ok elems ∧
      lookupKey gs "messages" = some (Json.arr kept) ∧
      kept = elems.filter keepMsg ∧
      ∀ m ∈ kept, roleIsSystem m = false) :=
  ⟨rfl, rfl,
   rewrite_restricted_postconditions
     [("model", Json.str "o1-mini"), ("temperature", Json.num 1),
      ("messages", Json.arr [Json.obj [("role", Json.str "system")],
        Json.obj [("role", Json.str "user")]])] rfl
     (Json.obj [("model", Json.str "o1-mini"),
        ("messages", Json.arr [Json.obj [("role", Json.str "user")]]),
        ("max_completion_tokens", Json.num 25000)]) rfl⟩

/-- Claim C5: a body whose model is not one of the restricted models is
passed through unchanged. -/
theorem rewrite_identity_on_unrestricted (fs : List (String × Json))
    (h : isO1Model ((lookupKey fs "model").getD (Json.str "")) = false) :
    rewriteBody (Json.obj fs) = Except.ok (Json.obj fs) := by
  simp only [rewriteBody]
  rw [if_neg (by simp [h])]

/-- Witness for C5 at a concrete unrestricted body with fields that the
restricted path would have altered. -/
theorem rewrite_identity_on_unrestricted_witness :
    isO1Model ((lookupKey [("model", Json.str "gpt-4o"), ("temperature", Json.num 7)]
        "model").getD (Json.str "")) = false ∧
    rewriteBody (Json.obj [("model", Json.str "gpt-4o"), ("temperature", Json.num 7)]) =
      Except.ok (Json.obj [("model", Json.str "gpt-4o"), ("temperature", Json.num 7)]) :=
  ⟨rfl, rewrite_identity_on_unrestricted _ rfl⟩

/-- Claim C6: a missing Authorization header, or one that does not start
with the literal `"Bearer "`, makes both handlers answer 401 with the
fixed detail payload, independently of the body parse outcome, and the
POST handler never forwards such a request upstream. -/
theorem missing_or_malformed_auth_yields_401 (path : String) (auth : Option String)
    (h : auth = none ∨ ∃ a, auth = some a ∧ pyStartsWith a "Bearer " = false) :
    (∀ parsed, proxy_post path auth parsed = HandlerResult.reply 401 AUTH_ERROR_DETAIL) ∧
    proxy_get path auth = HandlerResult.reply 401 AUTH_ERROR_DETAIL ∧
    (∀ parsed url hdr b, proxy_post path auth parsed ≠ HandlerResult.forward url hdr b) := by
  have hca : checkAuth auth = none := by
    rcases h with h | ⟨a, ha, hsw⟩
    · rw [h]; rfl
    · rw [ha]
      simp only [checkAuth]
      rw [hsw]
      simp
  refine ⟨?_, ?_, ?_⟩
  · intro parsed
    unfold proxy_post
    rw [hca]
  · unfold proxy_get
    rw [hca]
  · intro parsed url hdr b
    unfold proxy_post
    rw [hca]
    exact fun hh => HandlerResult.noConfusion hh

/-- Witness for C6 at a header with the wrong scheme. -/
theorem missing_or_malformed_auth_yields_401_witness :
    ((some "Token abc" : Option String) = none ∨
      ∃ a, (some "Token abc" : Option String) = some a ∧ pyStartsWith a "Bearer " = false) ∧
    proxy_post "chat/completions" (some "Token abc") (Except.ok (Json.obj [])) =
      HandlerResult.reply 401 AUTH_ERROR_DETAIL :=
  ⟨Or.inr ⟨"Token abc", rfl, by decide⟩,
   (missing_or_malformed_auth_yields_401 "chat/completions" (some "Token abc")
     (Or.inr ⟨"Token abc", rfl, by decide⟩)).1 (Except.ok (Json.obj []))⟩

/-- Claim C7: with a well-formed Bearer header, a POST body that fails
JSON parsing yields 400 with the fixed error payload and the upstream is
never contacted. -/
theorem invalid_json_yields_400 (path a : String)
    (h : pyStartsWith a "Bearer " = true) :
    proxy_post path (some a) (Except.error ()) = HandlerResult.reply 400 INVALID_JSON_ERROR ∧
    ∀ url hdr b, proxy_post path (some a) (Except.error ()) ≠ HandlerResult.forward url hdr b := by
  have hne : pyTruthy a = true := by
    unfold pyTruthy
    simp only [bne_iff_ne, ne_eq]
    intro he
    subst he
    exact absurd h (by decide)
  have hca : checkAuth (some a) = some (extractKey a) := by
    simp only [checkAuth]
    rw [hne, h]
    simp
  constructor
  · unfold proxy_post
    rw [hca]
  · intro url hdr b
    unfold proxy_post
    rw [hca]
    exact fun hh => HandlerResult.noConfusion hh

/-- Witness for C7 at a concrete Bearer header. -/
theorem invalid_json_yields_400_witness :
    pyStartsWith "Bearer tok" "Bearer " = true ∧
    proxy_post "chat/completions" (some "Bearer tok") (Except.error ()) =
      HandlerResult.reply 400 INVALID_JSON_ERROR :=
  ⟨by decide,
   (invalid_json_yields_400 "chat/completions" "Bearer tok" (by decide)).1⟩

/-- Claim C8 (counterexample): on the header `"Bearer Bearer abc"` the
extraction produces `"abc"` (the part after the last occurrence of
`"Bearer "`), not the substring `"Bearer abc"` following the
seven-character prefix. -/
theorem extract_key_counterexample :
    checkAuth (some "Bearer Bearer abc") = some "abc" ∧ ("abc" : String) ≠ "Bearer abc" :=
  ⟨rfl, by decide⟩

/-- Claim C8 (amended): when the text after the prefix contains no
further occurrence of `"Bearer "`, the extraction yields exactly the
substring following the prefix; in general it yields the substring after
the last occurrence of the separator. -/
theorem extract_key_after_last_bearer (t : String)
    (h : ∀ i ≤ t.data.length, "Bearer ".data.isPrefixOf (t.data.drop i) = false) :
    checkAuth (some ("Bearer " ++ t)) = some t := by
  have hall : ∀ i, "Bearer ".data.isPrefixOf (t.data.drop i) = false := by
    intro i
    by_cases hi : i ≤ t.data.length
    · exact h i hi
    · rw [List.drop_eq_nil_of_le (Nat.le_of_lt (Nat.lt_of_not_le hi))]
      decide
  have hd : ("Bearer " ++ t).data = "Bearer ".data ++ t.data := by
    obtain ⟨l⟩ := t
    rfl
  have hB : "Bearer ".data = 'B' :: "earer ".data := rfl
  have hne : pyTruthy ("Bearer " ++ t) = true := by
    unfold pyTruthy
    simp only [bne_iff_ne, ne_eq]
    intro he
    have h2 := congrArg String.data he
    rw [hd, show ("" : String).data = [] from rfl] at h2
    exact absurd (List.append_eq_nil.mp h2).1 (by decide)
  have hsw : pyStartsWith ("Bearer " ++ t) "Bearer " = true := by
    unfold pyStartsWith
    rw [hd]
    exact isPrefixOf_append_self _ _
  simp only [checkAuth]
  rw [hne, hsw]
  simp only [Bool.not_true, Bool.or_self, Bool.false_eq_true, if_false, Option.some.injEq]
  unfold extractKey pySplit
  rw [hd, hB]
  rw [splitGo_sep_full 'B' "earer ".data t.data (fun i => hB ▸ hall i)]
  simp [List.getLastD]

/-- Witness for the amended C8 theorem at a token free of the separator. -/
theorem extract_key_after_last_bearer_witness :
    (∀ i ≤ "abc".data.length, "Bearer ".data.isPrefixOf ("abc".data.drop i) = false) ∧
    checkAuth (some ("Bearer " ++ "abc")) = some "abc" :=
  ⟨by decide, extract_key_after_last_bearer "abc" (by decide)⟩

/-- Claim C9: the header consisting of the bare prefix `"Bearer "` passes
the credential check with the empty string as extracted key, and both
handlers forward with the outbound header `"Bearer "`. -/
theorem empty_bearer_token_accepted (path : String) :
    checkAuth (some "Bearer ") = some "" ∧
    proxy_get path (some "Bearer ") =
      HandlerResult.forward (OPENAI_API_BASE ++ "/v1/" ++ path) ("Bearer " ++ "") none ∧
    proxy_post path (some "Bearer ") (Except.ok (Json.obj [])) =
      HandlerResult.forward (OPENAI_API_BASE ++ "/v1/" ++ path) ("Bearer " ++ "")
        (some (Json.obj [])) ∧
    ("Bearer " ++ "" : String) = "Bearer " :=
  ⟨rfl, rfl, rfl, rfl⟩

/-- Claim C10: a successful rewrite of a restricted-model body preserves
the value of every top-level key other than the unsupported parameters,
the two token-budget keys, and `messages`. -/
theorem rewrite_preserves_unrelated_fields (fs : List (String × Json)) (k : String)
    (hmodel : isO1Model ((lookupKey fs "model").getD (Json.str "")) = true)
    (out : Json) (hok : rewriteBody (Json.obj fs) = Except.ok out)
    (h1 : k ∉ UNSUPPORTED_PARAMETERS) (h2 : k ≠ "max_tokens")
    (h3 : k ≠ "max_completion_tokens") (h4 : k ≠ "messages") :
    ∃ gs, out = Json.obj gs ∧ lookupKey gs k = lookupKey fs k := by
  obtain ⟨elems, kept, hiter, hfil, hout⟩ := rewriteBody_restricted_ok fs hmodel out hok
  refine ⟨_, hout, ?_⟩
  rw [lookupKey_setKey_ne _ _ _ _ h4, lookupKey_normalizeTokens_ne _ _ h2 h3,
    lookupKey_stripUnsupported_of_not_mem _ _ h1]

/-- Witness for C10 at a body with an unrecognized extra field. -/
theorem rewrite_preserves_unrelated_fields_witness :
    isO1Model ((lookupKey [("model", Json.str "o1-mini"), ("custom", Json.num 7)]
        "model").getD (Json.str "")) = true ∧
    rewriteBody (Json.obj [("model", Json.str "o1-mini"), ("custom", Json.num 7)]) =
      Except.ok (Json.obj [("model", Json.str "o1-mini"), ("custom", Json.num 7),
        ("max_completion_tokens", Json.num 25000), ("messages", Json.arr [])]) ∧
    ("custom" : String) ∉ UNSUPPORTED_PARAMETERS ∧
    (∃ gs, (Json.obj [("model", Json.str "o1-mini"), ("custom", Json.num 7),
        ("max_completion_tokens", Json.num 25000), ("messages", Json.arr [])]) = Json.obj gs ∧
      lookupKey gs "custom" =
        lookupKey [("model", Json.str "o1-mini"), ("custom", Json.num 7)] "custom") :=
  ⟨rfl, rfl, by decide,
   rewrite_preserves_unrelated_fields
     [("model", Json.str "o1-mini"), ("custom", Json.num 7)] "custom" rfl
     (Json.obj [("model", Json.str "o1-mini"), ("custom", Json.num 7),
        ("max_completion_tokens", Json.num 25000), ("messages", Json.arr [])]) rfl
     (by decide) (by decide) (by decide) (by decide)⟩

end O1Proxy
